import Mathlib

set_option maxRecDepth 16000

/-!
Verification development for the DeFi Position Explorer pipeline: the
intent parser (primary NL path with deterministic regex fallback), the
SQL query compiler for the lending-position fact table, the dispatch
boundary of the POST handler, and the Markdown result formatters.
JavaScript numbers are embedded as rationals; JavaScript strings as
Lean strings.
-/

/-- Prefix test on character lists: does the needle occur at the very
start of the haystack?  Mirrors the matching step of
`String.prototype.includes`. -/
def listHasPre : List Char → List Char → Bool
  | [], _ => true
  | _ :: _, [] => false
  | n :: ns, h :: hs => n == h && listHasPre ns hs

/-- Substring test on character lists, scanning left to right. -/
def listHasSub (needle : List Char) : List Char → Bool
  | [] => needle.isEmpty
  | h :: hs => listHasPre needle (h :: hs) || listHasSub needle hs

/-- Embedding of JavaScript `hay.includes(needle)`. -/
def strHasSub (hay needle : String) : Bool :=
  listHasSub needle.data hay.data

/-- Embedding of JavaScript `Array.prototype.join(sep)` on string arrays. -/
def joinSep (sep : String) : List String → String
  | [] => ""
  | [x] => x
  | x :: y :: xs => x ++ sep ++ joinSep sep (y :: xs)

/-- Embedding of JavaScript `String.prototype.toLowerCase()` (ASCII,
per character). -/
def strToLower (s : String) : String :=
  String.mk (s.data.map Char.toLower)

/-- The `WHERE` conditions assembled by `buildPositionQuery`
(src/lib/allium.ts): address equality, date equality, `balance > 0`,
plus a lower-cased project filter when a protocol is given (JavaScript
`if (protocol)` treats the empty string as absent). -/
def positionQueryConditions (address date : String)
    (protocol : Option String) : List String :=
  let conditions :=
    ["address = '" ++ address ++ "'",
     "date = '" ++ date ++ "'",
     "balance > 0"]
  match protocol with
  | some p => if p = "" then conditions
              else conditions ++ ["project = '" ++ strToLower p ++ "'"]
  | none => conditions

/-- The fixed SELECT clause shared by all three compiled queries. -/
def selectClause : String :=
  "\n    SELECT\n      date,\n      address,\n      project,\n      protocol,\n      symbol,\n      balance,\n      usd_balance,\n      usd_exchange_rate,\n      lending_id,\n      mint,\n      token_name\n    FROM solana.lending.position_holdings_daily\n    WHERE "

/-- Embedding of `buildPositionQuery` (src/lib/allium.ts): snapshot
query with descending-USD ordering and a 50-row cap. -/
def buildPositionQuery (address date : String)
    (protocol : Option String) : String :=
  selectClause ++ joinSep " AND " (positionQueryConditions address date protocol)
    ++ "\n    ORDER BY usd_balance DESC\n    LIMIT 50\n  "

/-- The `WHERE` conditions assembled by `buildPositionRangeQuery`. -/
def rangeQueryConditions (address startDate endDate : String)
    (protocol : Option String) : List String :=
  let conditions :=
    ["address = '" ++ address ++ "'",
     "date >= '" ++ startDate ++ "'",
     "date <= '" ++ endDate ++ "'",
     "balance > 0"]
  match protocol with
  | some p => if p = "" then conditions
              else conditions ++ ["project = '" ++ strToLower p ++ "'"]
  | none => conditions

/-- Embedding of `buildPositionRangeQuery` (src/lib/allium.ts): range
query with date-ascending then USD-descending ordering, 500-row cap. -/
def buildPositionRangeQuery (address startDate endDate : String)
    (protocol : Option String) : String :=
  selectClause
    ++ joinSep " AND " (rangeQueryConditions address startDate endDate protocol)
    ++ "\n    ORDER BY date ASC, usd_balance DESC\n    LIMIT 500\n  "

/-- The `WHERE` conditions assembled by `buildComparisonQuery`. -/
def comparisonQueryConditions (address date1 date2 : String)
    (protocol : Option String) : List String :=
  let conditions :=
    ["address = '" ++ address ++ "'",
     "date IN ('" ++ date1 ++ "', '" ++ date2 ++ "')",
     "balance > 0"]
  match protocol with
  | some p => if p = "" then conditions
              else conditions ++ ["project = '" ++ strToLower p ++ "'"]
  | none => conditions

/-- Embedding of `buildComparisonQuery` (src/lib/allium.ts): two-date
query with date-ascending then USD-descending ordering, 100-row cap. -/
def buildComparisonQuery (address date1 date2 : String)
    (protocol : Option String) : String :=
  selectClause
    ++ joinSep " AND " (comparisonQueryConditions address date1 date2 protocol)
    ++ "\n    ORDER BY date ASC, usd_balance DESC\n    LIMIT 100\n  "

/-- Left-pad a digit string with zeros to width k. -/
def padZeros (s : String) (k : Nat) : String :=
  if k ≤ s.length then s
  else String.mk (List.replicate (k - s.length) '0') ++ s

/-- Embedding of JavaScript `Number.prototype.toFixed(k)` on the
rational embedding of JS numbers: round to k decimal places (nearest,
as Mathlib `round`) and print with exactly k digits after the point. -/
def toFixed (k : Nat) (q : ℚ) : String :=
  let scaled : ℤ := round (q * (10 ^ k : ℚ))
  let sign := if scaled < 0 then "-" else ""
  let a := scaled.natAbs
  if k = 0 then sign ++ toString a
  else sign ++ toString (a / 10 ^ k) ++ "." ++ padZeros (toString (a % 10 ^ k)) k

/-- One wallet-token-date-protocol observation returned by the fact
table (`PositionRow` in src/lib/allium.ts). -/
structure PositionRow where
  date : String
  address : String
  project : String
  protocol : String
  symbol : String
  balance : ℚ
  usd_balance : ℚ
  usd_exchange_rate : ℚ
  lending_id : String
  mint : String
  token_name : String
deriving DecidableEq

/-- Embedding of `formatUSD` (src/lib/formatters.ts). -/
def formatUSD (value : ℚ) : String :=
  if value ≥ 1000000 then "$" ++ toFixed 2 (value / 1000000) ++ "M"
  else if value ≥ 1000 then "$" ++ toFixed 2 (value / 1000) ++ "K"
  else "$" ++ toFixed 2 value

/-- Embedding of `formatBalance` (src/lib/formatters.ts). -/
def formatBalance (value : ℚ) : String :=
  if value ≥ 1000000 then toFixed 4 (value / 1000000) ++ "M"
  else if value ≥ 1000 then toFixed 4 (value / 1000) ++ "K"
  else toFixed 6 value

/-- Characters before the first 'T'. -/
def takeUntilT : List Char → List Char
  | [] => []
  | c :: cs => if c == 'T' then [] else c :: takeUntilT cs

/-- Embedding of `formatDate` (src/lib/formatters.ts):
`dateStr.split("T")[0]`, the date portion before any time separator. -/
def formatDate (dateStr : String) : String :=
  String.mk (takeUntilT dateStr.data)

/-- JavaScript `s.slice(0, n)`. -/
def strTake (s : String) (n : Nat) : String :=
  String.mk (s.data.take n)

/-- JavaScript `s.slice(-n)` for n ≤ length (start clamped to 0). -/
def strTakeRight (s : String) (n : Nat) : String :=
  String.mk (s.data.drop (s.data.length - n))

/-- Address shortening used by all three formatters:
first 4 and last 4 characters joined by an ellipsis. -/
def shortAddr (address : String) : String :=
  strTake address 4 ++ "..." ++ strTakeRight address 4

/-- One table row emitted by `formatPositionTable`. -/
def positionRowLine (row : PositionRow) : String :=
  "| " ++ row.symbol ++ " | " ++ row.project ++ " (" ++ row.protocol ++ ") | "
    ++ formatBalance row.balance ++ " | " ++ formatUSD row.usd_balance
    ++ " | $" ++ toFixed 4 row.usd_exchange_rate ++ " |\n"

/-- Running total accumulated by `rows.forEach((r) => (totalUSD += r.usd_balance))`
and by the `reduce` calls of the range formatter. -/
def sumUSD (rows : List PositionRow) : ℚ :=
  rows.foldl (fun acc r => acc + r.usd_balance) 0

/-- Embedding of `formatPositionTable` (src/lib/formatters.ts). -/
def formatPositionTable (rows : List PositionRow) : String :=
  match rows with
  | [] => "No positions found for this wallet on the specified date. The wallet may not have had any active Kamino lending positions, or the date may be outside the available data range (March 2025 onwards)."
  | r0 :: _ =>
    let date := formatDate r0.date
    let totalUSD := sumUSD rows
    let header :=
      "### Lending Positions for `" ++ shortAddr r0.address ++ "` on " ++ date
        ++ "\n\n" ++ "| Token | Protocol | Balance | USD Value | Price |\n"
        ++ "|-------|----------|---------|-----------|-------|\n"
    let body := rows.foldl (fun md row => md ++ positionRowLine row) header
    body ++ "\n"
      ++ ("**Total Portfolio Value: " ++ formatUSD totalUSD ++ "**")
      ++ "\n" ++ "\n_Data source: Allium `solana.lending.position_holdings_daily`_"

/-- Insertion step of the `Map` built by the range formatter:
`if (!byDate.has(d)) byDate.set(d, []); byDate.get(d)!.push(row)`.
Keys keep insertion order; a repeated key appends to its row list. -/
def upsertDate (m : List (String × List PositionRow)) (d : String)
    (r : PositionRow) : List (String × List PositionRow) :=
  match m with
  | [] => [(d, [r])]
  | (k, v) :: rest =>
      if k = d then (k, v ++ [r]) :: rest else (k, v) :: upsertDate rest d r

/-- The `byDate` map of the range formatter, grouped on the normalized
date. -/
def groupByDate (rows : List PositionRow) : List (String × List PositionRow) :=
  rows.foldl (fun m r => upsertDate m (formatDate r.date) r) []

/-- JavaScript `byDate.get(d)`. -/
def lookupDate (m : List (String × List PositionRow)) (d : String) :
    Option (List PositionRow) :=
  match m with
  | [] => none
  | (k, v) :: rest => if k = d then some v else lookupDate rest d

/-- Embedding of `[...new Set(xs)]`: deduplicate keeping the first
occurrence of each element, in order. -/
def dedupKeep : List String → List String
  | [] => []
  | x :: xs => x :: dedupKeep (xs.filter (fun y => decide ¬ y = x))
termination_by l => l.length
decreasing_by
  simp only [List.length_cons]
  exact Nat.lt_succ_of_le (List.length_filter_le _ _)

/-- Insertion step of lexicographic string sorting. -/
def insertSorted (d : String) : List String → List String
  | [] => [d]
  | x :: xs => if d ≤ x then d :: x :: xs else x :: insertSorted d xs

/-- Embedding of JavaScript `[...keys].sort()` on strings
(default lexicographic comparator). -/
def sortStrings (xs : List String) : List String :=
  xs.foldr insertSorted []

/-- One time-series table row emitted by `formatRangeTable`. -/
def rangeLine (date : String) (row : PositionRow) : String :=
  "| " ++ date ++ " | " ++ formatBalance row.balance ++ " | "
    ++ formatUSD row.usd_balance ++ " | $"
    ++ toFixed 4 row.usd_exchange_rate ++ " |\n"

/-- Body of one symbol's time-series table in `formatRangeTable`: for
each date in order, a row is appended exactly when
`byDate.get(date).find((r) => r.symbol === symbol)` succeeds. -/
def rangeSymbolBody (byDate : List (String × List PositionRow))
    (dates : List String) (symbol : String) : String :=
  dates.foldl
    (fun md date =>
      match ((lookupDate byDate date).getD []).find?
          (fun r => r.symbol == symbol) with
      | some row => md ++ rangeLine date row
      | none => md)
    ""

/-- One full per-symbol section (heading, table header, body). -/
def rangeSymbolSection (byDate : List (String × List PositionRow))
    (dates : List String) (symbol : String) : String :=
  "#### " ++ symbol ++ "\n\n"
    ++ "| Date | Balance | USD Value | Price |\n"
    ++ "|------|---------|-----------|-------|\n"
    ++ rangeSymbolBody byDate dates symbol ++ "\n"

/-- Embedding of `formatRangeTable` (src/lib/formatters.ts). -/
def formatRangeTable (rows : List PositionRow) : String :=
  match rows with
  | [] => "No positions found for this wallet in the specified date range."
  | r0 :: _ =>
    let byDate := groupByDate rows
    let symbols := dedupKeep (rows.map (fun r => r.symbol))
    let dates := sortStrings (byDate.map (fun kv => kv.1))
    let startDate := dates.headD ""
    let endDate := dates.getLastD ""
    let header :=
      "### Position History for `" ++ shortAddr r0.address ++ "` ("
        ++ startDate ++ " to " ++ endDate ++ ")\n\n"
    let body :=
      symbols.foldl (fun md s => md ++ rangeSymbolSection byDate dates s) header
    let firstRows := (lookupDate byDate startDate).getD []
    let lastRows := (lookupDate byDate endDate).getD []
    let firstTotal := sumUSD firstRows
    let lastTotal := sumUSD lastRows
    let change := lastTotal - firstTotal
    let pctChange :=
      if firstTotal > 0 then toFixed 2 ((change / firstTotal) * 100) else "N/A"
    body ++ "**Period Summary:**\n"
      ++ ("- Start value (" ++ startDate ++ "): " ++ formatUSD firstTotal) ++ "\n"
      ++ ("- End value (" ++ endDate ++ "): " ++ formatUSD lastTotal) ++ "\n"
      ++ ("- Change: " ++ formatUSD change ++ " (" ++ pctChange ++ "%)") ++ "\n"
      ++ "\n_Data source: Allium `solana.lending.position_holdings_daily`_"

/-- One comparison table row: balances and USD at each date, absolute
change, and the guarded percentage-change cell. -/
def comparisonRowLine (symbol : String) (bal1 usd1 bal2 usd2 : ℚ) : String :=
  let usdChange := usd2 - usd1
  let pctChange :=
    if usd1 > 0 then toFixed 2 ((usdChange / usd1) * 100) ++ "%" else "N/A"
  "| " ++ symbol ++ " | " ++ formatBalance bal1 ++ " | " ++ formatUSD usd1
    ++ " | " ++ formatBalance bal2 ++ " | " ++ formatUSD usd2 ++ " | "
    ++ formatUSD usdChange ++ (" | " ++ pctChange ++ " |\n")

/-- Loop body of the comparison formatter: look up each side's first
row for the symbol (`find`), defaulting balances to 0, emit the row
line, and accumulate both totals. -/
def comparisonStep (d1Rows d2Rows : List PositionRow)
    (st : String × ℚ × ℚ) (symbol : String) : String × ℚ × ℚ :=
  let r1 := d1Rows.find? (fun r => r.symbol == symbol)
  let r2 := d2Rows.find? (fun r => r.symbol == symbol)
  let bal1 := (r1.map (fun r => r.balance)).getD 0
  let usd1 := (r1.map (fun r => r.usd_balance)).getD 0
  let bal2 := (r2.map (fun r => r.balance)).getD 0
  let usd2 := (r2.map (fun r => r.usd_balance)).getD 0
  (st.1 ++ comparisonRowLine symbol bal1 usd1 bal2 usd2,
   st.2.1 + usd1, st.2.2 + usd2)

/-- Header-separator line of the comparison table, built with
`"-".repeat(n)` pieces. -/
def comparisonSepLine : String :=
  "|-------|" ++ String.mk (List.replicate 18 '-') ++ "|"
    ++ String.mk (List.replicate 16 '-') ++ "|"
    ++ String.mk (List.replicate 18 '-') ++ "|"
    ++ String.mk (List.replicate 16 '-') ++ "|--------|----------|\n"

/-- Embedding of `formatComparisonTable` (src/lib/formatters.ts). -/
def formatComparisonTable (rows : List PositionRow)
    (date1 date2 : String) : String :=
  match rows with
  | [] => "No positions found for comparison on the specified dates."
  | r0 :: _ =>
    let d1Rows := rows.filter (fun r => formatDate r.date == date1)
    let d2Rows := rows.filter (fun r => formatDate r.date == date2)
    let allSymbols :=
      dedupKeep (d1Rows.map (fun r => r.symbol) ++ d2Rows.map (fun r => r.symbol))
    let header :=
      "### Position Comparison for `" ++ shortAddr r0.address ++ "`: "
        ++ date1 ++ " vs " ++ date2 ++ "\n\n"
        ++ "| Token | Balance (" ++ date1 ++ ") | USD (" ++ date1
        ++ ") | Balance (" ++ date2 ++ ") | USD (" ++ date2
        ++ ") | Change | % Change |\n" ++ comparisonSepLine
    let st := allSymbols.foldl (comparisonStep d1Rows d2Rows) (header, 0, 0)
    let totalD1 := st.2.1
    let totalD2 := st.2.2
    let totalChange := totalD2 - totalD1
    let totalPct :=
      if totalD1 > 0 then toFixed 2 ((totalChange / totalD1) * 100) ++ "%"
      else "N/A"
    st.1 ++ "\n**Total Portfolio:**\n"
      ++ ("- " ++ date1 ++ ": " ++ formatUSD totalD1) ++ "\n"
      ++ ("- " ++ date2 ++ ": " ++ formatUSD totalD2) ++ "\n"
      ++ ("- Change: " ++ formatUSD totalChange ++ " (" ++ totalPct ++ ")") ++ "\n"
      ++ "\n_Data source: Allium `solana.lending.position_holdings_daily`_"

/-- The five intent kinds of the `ParsedQuery` union (src/lib/agent.ts). -/
inductive QType where
  | snapshot
  | range
  | comparison
  | help
  | error
deriving DecidableEq

/-- Embedding of the `ParsedQuery` TypeScript interface: a kind tag and
optional fields (all fields beyond the tag are optional in the source). -/
structure ParsedQuery where
  type : QType
  address : Option String := none
  date : Option String := none
  start_date : Option String := none
  end_date : Option String := none
  date1 : Option String := none
  date2 : Option String := none
  protocol : Option String := none
  message : Option String := none
deriving DecidableEq

/-- Membership in the base58 character class of the address regex
`[1-9A-HJ-NP-Za-km-z]`. -/
def isBase58Char (c : Char) : Bool :=
  (decide ('1' ≤ c) && decide (c ≤ '9'))
    || (decide ('A' ≤ c) && decide (c ≤ 'H'))
    || (decide ('J' ≤ c) && decide (c ≤ 'N'))
    || (decide ('P' ≤ c) && decide (c ≤ 'Z'))
    || (decide ('a' ≤ c) && decide (c ≤ 'k'))
    || (decide ('m' ≤ c) && decide (c ≤ 'z'))

/-- Maximal run of base58 characters at the head of the list. -/
def base58Run : List Char → List Char
  | [] => []
  | c :: cs => if isBase58Char c then c :: base58Run cs else []

/-- Embedding of `msg.match(/[1-9A-HJ-NP-Za-km-z]{32,44}/)`: the
leftmost position with at least 32 consecutive base58 characters wins,
and the greedy quantifier takes at most 44 of them. -/
def findBase58 : List Char → Option String
  | [] => none
  | c :: cs =>
      let run := base58Run (c :: cs)
      if 32 ≤ run.length then some (String.mk (run.take 44))
      else findBase58 cs

/-- Embedding of `msg.match(/\d{4}-\d{2}-\d{2}/g)`: all non-overlapping
matches in left-to-right order of appearance. -/
def findDates : List Char → List String
  | a :: b :: c :: d :: h1 :: e :: f :: h2 :: g :: i :: rest =>
      if a.isDigit && b.isDigit && c.isDigit && d.isDigit && h1 == '-'
          && e.isDigit && f.isDigit && h2 == '-' && g.isDigit && i.isDigit then
        String.mk [a, b, c, d, h1, e, f, h2, g, i] :: findDates rest
      else
        findDates (b :: c :: d :: h1 :: e :: f :: h2 :: g :: i :: rest)
  | _ :: rest => findDates rest
  | [] => []

/-- The help-trigger test of `regexParse`, applied to the lower-cased
utterance. -/
def helpTrigger (lower : String) : Bool :=
  strHasSub lower "help" || strHasSub lower "what can you"
    || lower == "hi" || lower == "hello"

/-- The comparison-trigger test of `regexParse`. -/
def comparisonTrigger (lower : String) : Bool :=
  strHasSub lower "compare" || strHasSub lower "vs" || strHasSub lower "versus"

/-- The range-trigger test of `regexParse`. -/
def rangeTrigger (lower : String) : Bool :=
  strHasSub lower "from" || strHasSub lower "history"
    || strHasSub lower "range" || strHasSub lower "between"

/-- Error message of `regexParse` when no address is found. -/
def noAddressMsg : String :=
  "I need a Solana wallet address. Try: 'Show me positions for `<wallet_address>` on 2025-12-31'"

/-- Error message of `regexParse` when an address is found but no date. -/
def noDateMsg : String :=
  "I found a wallet address but need a date. Try: 'Show me positions for `<wallet>` on 2025-12-31'"

/-- Embedding of the deterministic fallback parser `regexParse`
(src/lib/agent.ts). -/
def regexParse (msg : String) : ParsedQuery :=
  let lower := strToLower msg
  let address := findBase58 msg.data
  let dateMatches := findDates msg.data
  if helpTrigger lower then { type := .help }
  else
    match address with
    | none => { type := .error, message := some noAddressMsg }
    | some addr =>
        if comparisonTrigger lower && decide (2 ≤ dateMatches.length) then
          { type := .comparison, address := some addr,
            date1 := dateMatches[0]?, date2 := dateMatches[1]? }
        else if rangeTrigger lower && decide (2 ≤ dateMatches.length) then
          { type := .range, address := some addr,
            start_date := dateMatches[0]?, end_date := dateMatches[1]? }
        else if decide (1 ≤ dateMatches.length) then
          { type := .snapshot, address := some addr, date := dateMatches[0]? }
        else
          { type := .error, message := some noDateMsg }

/-- JavaScript falsiness of an optional string field: absent or empty. -/
def jsMissing : Option String → Bool
  | none => true
  | some s => s == ""

/-- JavaScript `opt || dflt` on an optional string. -/
def jsOr (opt : Option String) (dflt : String) : String :=
  match opt with
  | some s => if s == "" then dflt else s
  | none => dflt

/-- What the POST handler decides to do with a parsed intent before any
external call: short-circuit with a response body, or compile SQL and
hand it to query execution. -/
inductive DispatchPlan where
  | respond (response : String) (query_type : QType)
  | runSql (sql : String) (query_type : QType)
deriving DecidableEq

/-- Default help text of the POST handler. -/
def helpDefaultMsg : String :=
  "I can help you look up historical DeFi lending positions on Solana (Kamino). Try:\n\n- **Snapshot:** \"Show me positions for `<wallet>` on 2025-12-31\"\n- **Range:** \"Show me positions for `<wallet>` from 2025-10-01 to 2025-12-31\"\n- **Compare:** \"Compare `<wallet>` positions on 2025-09-30 vs 2025-12-31\"\n\nAvailable tokens: USDC, SOL, USDG, PYUSD, USDT, USDS\nDate range: March 2025 to present"

/-- Missing-field message for a snapshot intent. -/
def snapshotMissingMsg : String :=
  "I need both a wallet address and a date. Try: 'Show me positions for `<wallet>` on 2025-12-31'"

/-- Missing-field message for a range intent. -/
def rangeMissingMsg : String :=
  "I need a wallet address, start date, and end date. Try: 'Show positions for `<wallet>` from 2025-10-01 to 2025-12-31'"

/-- Missing-field message for a comparison intent. -/
def comparisonMissingMsg : String :=
  "I need a wallet address and two dates to compare. Try: 'Compare `<wallet>` on 2025-09-30 vs 2025-12-31'"

/-- Embedding of the dispatch boundary of the POST handler
(src/app/api/chat/route.ts): the branching on the parsed intent up to
the first external call.  `runSql` is reached exactly when a compiled
query is handed to query execution. -/
def dispatchPlan (parsed : ParsedQuery) : DispatchPlan :=
  match parsed.type with
  | .help => .respond (jsOr parsed.message helpDefaultMsg) .help
  | .error => .respond (jsOr parsed.message "I couldn't understand that query.") .error
  | .snapshot =>
      if jsMissing parsed.address || jsMissing parsed.date then
        .respond snapshotMissingMsg .error
      else
        .runSql
          (buildPositionQuery (parsed.address.getD "") (parsed.date.getD "")
            parsed.protocol)
          .snapshot
  | .range =>
      if jsMissing parsed.address || jsMissing parsed.start_date
          || jsMissing parsed.end_date then
        .respond rangeMissingMsg .error
      else
        .runSql
          (buildPositionRangeQuery (parsed.address.getD "")
            (parsed.start_date.getD "") (parsed.end_date.getD "")
            parsed.protocol)
          .range
  | .comparison =>
      if jsMissing parsed.address || jsMissing parsed.date1
          || jsMissing parsed.date2 then
        .respond comparisonMissingMsg .error
      else
        .runSql
          (buildComparisonQuery (parsed.address.getD "")
            (parsed.date1.getD "") (parsed.date2.getD "")
            parsed.protocol)
          .comparison

/-- JSON values, as produced by JavaScript `JSON.parse`. -/
inductive Json where
  | null
  | bool (b : Bool)
  | num (q : ℚ)
  | str (s : String)
  | arr (elems : List Json)
  | obj (fields : List (String × Json))

/-- Skip JSON whitespace. -/
def skipWs : List Char → List Char
  | [] => []
  | c :: cs =>
      if c == ' ' || c == '\n' || c == '\t' || c == '\r' then skipWs cs
      else c :: cs

/-- Hexadecimal digit value. -/
def hexVal (c : Char) : Option Nat :=
  if c.isDigit then some (c.toNat - '0'.toNat)
  else if decide ('a' ≤ c) && decide (c ≤ 'f') then some (c.toNat - 'a'.toNat + 10)
  else if decide ('A' ≤ c) && decide (c ≤ 'F') then some (c.toNat - 'A'.toNat + 10)
  else none

/-- Characters of a JSON string literal after its opening quote;
returns the decoded characters and the remaining input. -/
def jstrChars : List Char → Option (List Char × List Char)
  | [] => none
  | '"' :: rest => some ([], rest)
  | '\\' :: e :: rest =>
      match e with
      | '"' => (jstrChars rest).map (fun p => ('"' :: p.1, p.2))
      | '\\' => (jstrChars rest).map (fun p => ('\\' :: p.1, p.2))
      | '/' => (jstrChars rest).map (fun p => ('/' :: p.1, p.2))
      | 'n' => (jstrChars rest).map (fun p => ('\n' :: p.1, p.2))
      | 't' => (jstrChars rest).map (fun p => ('\t' :: p.1, p.2))
      | 'r' => (jstrChars rest).map (fun p => ('\r' :: p.1, p.2))
      | 'b' => (jstrChars rest).map (fun p => (Char.ofNat 8 :: p.1, p.2))
      | 'f' => (jstrChars rest).map (fun p => (Char.ofNat 12 :: p.1, p.2))
      | 'u' =>
          match rest with
          | h1 :: h2 :: h3 :: h4 :: rest2 =>
              match hexVal h1, hexVal h2, hexVal h3, hexVal h4 with
              | some a, some b, some c, some d =>
                  (jstrChars rest2).map
                    (fun p => (Char.ofNat (((a * 16 + b) * 16 + c) * 16 + d) :: p.1, p.2))
              | _, _, _, _ => none
          | _ => none
      | _ => none
  | c :: rest => (jstrChars rest).map (fun p => (c :: p.1, p.2))

/-- Accumulate decimal digits from the head of the input. -/
def takeDigits : List Char → List Char × List Char
  | [] => ([], [])
  | c :: cs =>
      if c.isDigit then
        let p := takeDigits cs
        (c :: p.1, p.2)
      else ([], c :: cs)

/-- Numeric value of a digit list. -/
def digitsVal (ds : List Char) : Nat :=
  ds.foldl (fun acc c => acc * 10 + (c.toNat - '0'.toNat)) 0

/-- Parse a JSON number into a rational. -/
def parseJNum (l : List Char) : Option (ℚ × List Char) :=
  let (sign, l1) : ℚ × List Char :=
    match l with
    | '-' :: rest => (-1, rest)
    | _ => (1, l)
  let (ip, l2) := takeDigits l1
  if ip.isEmpty then none
  else
    let intPart : ℚ := (digitsVal ip : ℚ)
    let (fracPart, l3) : ℚ × List Char :=
      match l2 with
      | '.' :: rest =>
          let (fd, l3a) := takeDigits rest
          ((digitsVal fd : ℚ) / ((10 : ℚ) ^ fd.length), l3a)
      | _ => (0, l2)
    match l3 with
    | 'e' :: rest | 'E' :: rest =>
        let (esign, r1) : ℤ × List Char :=
          match rest with
          | '+' :: r => (1, r)
          | '-' :: r => (-1, r)
          | _ => (1, rest)
        let (ed, r2) := takeDigits r1
        if ed.isEmpty then none
        else some (sign * (intPart + fracPart) * (10 : ℚ) ^ (esign * (digitsVal ed : ℤ)), r2)
    | _ => some (sign * (intPart + fracPart), l3)

mutual

/-- Fuel-indexed JSON value parser modelling `JSON.parse`. -/
def parseJVal : Nat → List Char → Option (Json × List Char)
  | 0, _ => none
  | fuel + 1, l =>
      match skipWs l with
      | [] => none
      | 'n' :: 'u' :: 'l' :: 'l' :: rest => some (.null, rest)
      | 't' :: 'r' :: 'u' :: 'e' :: rest => some (.bool true, rest)
      | 'f' :: 'a' :: 'l' :: 's' :: 'e' :: rest => some (.bool false, rest)
      | '"' :: rest =>
          (jstrChars rest).map (fun p => (.str (String.mk p.1), p.2))
      | '[' :: rest =>
          (match skipWs rest with
           | ']' :: rest2 => some (.arr [], rest2)
           | _ =>
              (parseJElems fuel rest).map (fun p => (.arr p.1, p.2)))
      | '{' :: rest =>
          (match skipWs rest with
           | '}' :: rest2 => some (.obj [], rest2)
           | _ =>
              (parseJFields fuel rest).map (fun p => (.obj p.1, p.2)))
      | l2 => (parseJNum l2).map (fun p => (.num p.1, p.2))

/-- Comma-separated array elements followed by a closing bracket. -/
def parseJElems : Nat → List Char → Option (List Json × List Char)
  | 0, _ => none
  | fuel + 1, l =>
      match parseJVal fuel l with
      | none => none
      | some (j, rest) =>
          match skipWs rest with
          | ',' :: rest2 =>
              (parseJElems fuel rest2).map (fun p => (j :: p.1, p.2))
          | ']' :: rest2 => some ([j], rest2)
          | _ => none

/-- Comma-separated object members followed by a closing brace. -/
def parseJFields : Nat → List Char → Option (List (String × Json) × List Char)
  | 0, _ => none
  | fuel + 1, l =>
      match skipWs l with
      | '"' :: rest =>
          (match jstrChars rest with
           | none => none
           | some (key, rest2) =>
              match skipWs rest2 with
              | ':' :: rest3 =>
                  (match parseJVal fuel rest3 with
                   | none => none
                   | some (j, rest4) =>
                      match skipWs rest4 with
                      | ',' :: rest5 =>
                          (parseJFields fuel rest5).map
                            (fun p => ((String.mk key, j) :: p.1, p.2))
                      | '}' :: rest5 => some ([(String.mk key, j)], rest5)
                      | _ => none)
              | _ => none)
      | _ => none

end

/-- Whitespace-character test used by the trim model. -/
def isJsWs (c : Char) : Bool :=
  c == ' ' || c == '\n' || c == '\t' || c == '\r'

/-- Drop leading whitespace from a character list. -/
def dropWsList : List Char → List Char
  | [] => []
  | c :: cs => if isJsWs c then dropWsList cs else c :: cs

/-- Embedding of JavaScript `String.prototype.trim()`: strip leading
and trailing whitespace. -/
def strTrim (s : String) : String :=
  String.mk ((dropWsList (dropWsList s.data).reverse).reverse)

/-- Embedding of JavaScript `JSON.parse(s)`: `some` on a single valid
JSON value (with only trailing whitespace), `none` where `JSON.parse`
throws. -/
def jsonParse (s : String) : Option Json :=
  match parseJVal (2 * s.length + 2) s.data with
  | some (j, rest) => if (skipWs rest).isEmpty then some j else none
  | none => none

/-- Outcome of the primary NL-understanding path of `parseUserQuery`,
up to the reply text: the credential may be absent, the API call may
throw, or a reply text is extracted from the first content block. -/
inductive PrimaryOutcome where
  | noKey
  | failed
  | replied (text : String)

/-- Value returned by `parseUserQuery`: either the unvalidated
`JSON.parse` result of the primary reply (the source casts it to
`ParsedQuery` without any runtime check), or the deterministic
fallback intent. -/
inductive ParseResult where
  | primary (j : Json)
  | fallback (p : ParsedQuery)

/-- Embedding of `parseUserQuery` (src/lib/agent.ts): with a
credential, try the primary path and catch any throw (transport
failure or `JSON.parse` failure on the trimmed reply) by falling back
to `regexParse`; without a credential, go straight to `regexParse`. -/
def parseUserQuery (primary : PrimaryOutcome) (msg : String) : ParseResult :=
  match primary with
  | .noKey => .fallback (regexParse msg)
  | .failed => .fallback (regexParse msg)
  | .replied text =>
      match jsonParse (strTrim text) with
      | some j => .primary j
      | none => .fallback (regexParse msg)

/-- Object field lookup. -/
def getField (fields : List (String × Json)) (k : String) : Option Json :=
  match fields with
  | [] => none
  | (key, v) :: rest => if key = k then some v else getField rest k

/-- Is the optional field a nonempty JSON string? -/
def isNonemptyJStr : Option Json → Bool
  | some (.str s) => decide ¬ s = ""
  | _ => false

/-- Is the field absent or a JSON string? -/
def isOptJStr : Option Json → Bool
  | none => true
  | some (.str _) => true
  | _ => false

/-- Does the string have the literal shape `YYYY-MM-DD`? -/
def isDateLit (s : String) : Bool :=
  match s.data with
  | [a, b, c, d, h1, e, f, h2, g, i] =>
      a.isDigit && b.isDigit && c.isDigit && d.isDigit && h1 == '-'
        && e.isDigit && f.isDigit && h2 == '-' && g.isDigit && i.isDigit
  | _ => false

/-- Is the optional field a JSON string of date shape? -/
def isJDate : Option Json → Bool
  | some (.str s) => isDateLit s
  | _ => false

/-- Modelled from the spec: conformance of a `JSON.parse` result to
the `QueryIntent` union of spec section 3 — one JSON object whose
`type` tag is one of the five kinds, carrying a non-empty address and
the calendar dates required by that kind, with `protocol` and
`message` optional strings.  The source has no such runtime check;
this definition exists to state what the spec asks of the primary
reply. -/
def conformsToQueryIntent (j : Json) : Bool :=
  match j with
  | .obj fields =>
      (match getField fields "type" with
       | some (.str t) =>
          if t == "snapshot" then
            isNonemptyJStr (getField fields "address")
              && isJDate (getField fields "date")
              && isOptJStr (getField fields "protocol")
          else if t == "range" then
            isNonemptyJStr (getField fields "address")
              && isJDate (getField fields "start_date")
              && isJDate (getField fields "end_date")
              && isOptJStr (getField fields "protocol")
          else if t == "comparison" then
            isNonemptyJStr (getField fields "address")
              && isJDate (getField fields "date1")
              && isJDate (getField fields "date2")
              && isOptJStr (getField fields "protocol")
          else if t == "help" then isOptJStr (getField fields "message")
          else if t == "error" then isOptJStr (getField fields "message")
          else false
       | _ => false)
  | _ => false

/-- Concatenation of a list of strings in order. -/
def concatList : List String → String
  | [] => ""
  | s :: rest => s ++ concatList rest

/-- The per-date contribution of one symbol's time-series table in the
range formatter: the table row when the date has a row for the symbol,
and nothing (the empty string) otherwise. -/
def rangeDateCell (byDate : List (String × List PositionRow))
    (symbol date : String) : String :=
  match ((lookupDate byDate date).getD []).find? (fun r => r.symbol == symbol) with
  | some row => rangeLine date row
  | none => ""

/-- The incomplete-intent test performed by the POST handler for the
three data-bearing kinds (JavaScript falsiness on each required field). -/
def incompleteIntent (p : ParsedQuery) : Bool :=
  match p.type with
  | .snapshot => jsMissing p.address || jsMissing p.date
  | .range =>
      jsMissing p.address || jsMissing p.start_date || jsMissing p.end_date
  | .comparison =>
      jsMissing p.address || jsMissing p.date1 || jsMissing p.date2
  | _ => false

/-- The per-kind missing-field message of the POST handler. -/
def missingFieldMsg : QType → String
  | .snapshot => snapshotMissingMsg
  | .range => rangeMissingMsg
  | .comparison => comparisonMissingMsg
  | _ => ""

theorem listHasPre_append (n l r : List Char)
    (h : listHasPre n l = true) : listHasPre n (l ++ r) = true := by
  induction n generalizing l with
  | nil => simp [listHasPre]
  | cons c ns ih =>
    cases l with
    | nil => simp [listHasPre] at h
    | cons x xs =>
      simp only [listHasPre, Bool.and_eq_true] at h
      simp only [List.cons_append, listHasPre, Bool.and_eq_true]
      exact ⟨h.1, ih xs h.2⟩

theorem listHasPre_self_append (n r : List Char) :
    listHasPre n (n ++ r) = true := by
  induction n with
  | nil => simp [listHasPre]
  | cons c ns ih => simp [listHasPre, ih]

theorem listHasSub_nil_needle (l : List Char) : listHasSub [] l = true := by
  cases l <;> simp [listHasSub, listHasPre, List.isEmpty]

theorem listHasSub_append_right {n r : List Char} (l : List Char)
    (h : listHasSub n r = true) : listHasSub n (l ++ r) = true := by
  induction l with
  | nil => simpa using h
  | cons x xs ih => simp [listHasSub, ih]

theorem listHasSub_append_left {n l : List Char} (r : List Char)
    (h : listHasSub n l = true) : listHasSub n (l ++ r) = true := by
  induction l with
  | nil =>
    simp only [listHasSub, List.isEmpty_iff] at h
    subst h
    simpa using listHasSub_nil_needle r
  | cons x xs ih =>
    simp only [listHasSub, Bool.or_eq_true] at h
    rcases h with h | h
    · simp only [List.cons_append, listHasSub, Bool.or_eq_true]
      exact Or.inl (listHasPre_append _ _ r h)
    · simp [listHasSub, ih h]

theorem listHasSub_here (n r : List Char) : listHasSub n (n ++ r) = true := by
  cases n with
  | nil => simpa using listHasSub_nil_needle r
  | cons c ns =>
    simp only [List.cons_append, listHasSub, Bool.or_eq_true]
    exact Or.inl (listHasPre_self_append (c :: ns) r)

theorem strHasSub_self (s : String) : strHasSub s s = true := by
  have h := listHasSub_here s.data []
  rw [List.append_nil] at h
  exact h

theorem strHasSub_append_left {a needle : String} (b : String)
    (h : strHasSub a needle = true) : strHasSub (a ++ b) needle = true := by
  unfold strHasSub at h ⊢
  rw [String.data_append]
  exact listHasSub_append_left _ h

theorem strHasSub_append_right {b needle : String} (a : String)
    (h : strHasSub b needle = true) : strHasSub (a ++ b) needle = true := by
  unfold strHasSub at h ⊢
  rw [String.data_append]
  exact listHasSub_append_right _ h

theorem strHasSub_joinSep (sep : String) (xs : List String) (x : String)
    (hx : x ∈ xs) : strHasSub (joinSep sep xs) x = true := by
  induction xs with
  | nil => cases hx
  | cons y ys ih =>
    cases ys with
    | nil =>
      rcases List.mem_singleton.mp hx with rfl
      exact strHasSub_self x
    | cons z zs =>
      rcases List.mem_cons.mp hx with rfl | h
      · exact strHasSub_append_left _ (strHasSub_append_left _ (strHasSub_self x))
      · exact strHasSub_append_right _ (ih h)

theorem foldl_add_usd (l : List PositionRow) (init : ℚ) :
    l.foldl (fun acc r => acc + r.usd_balance) init
      = init + (l.map (fun r => r.usd_balance)).sum := by
  induction l generalizing init with
  | nil => simp
  | cons r rs ih => simp [List.foldl_cons, ih, add_assoc]

theorem sumUSD_eq (l : List PositionRow) :
    sumUSD l = (l.map (fun r => r.usd_balance)).sum := by
  simpa using foldl_add_usd l 0

/-- C3: each query builder is a pure function whose output contains the
`balance > 0` filter, the per-kind date filter (equality / inclusive
bounds / two-date membership), the per-kind ordering and row cap
(50/500/100), and a lower-cased protocol equality filter exactly when a
protocol is specified; with no protocol the condition list is exactly
the base filters, with no project condition. -/
theorem C3_query_builders (a d s e d1 d2 p : String) (proto : Option String)
    (hp : ¬ p = "") :
    strHasSub (buildPositionQuery a d proto) "balance > 0" = true
  ∧ strHasSub (buildPositionQuery a d proto) ("date = '" ++ d ++ "'") = true
  ∧ strHasSub (buildPositionQuery a d proto) "ORDER BY usd_balance DESC" = true
  ∧ strHasSub (buildPositionQuery a d proto) "LIMIT 50" = true
  ∧ strHasSub (buildPositionQuery a d (some p))
      ("project = '" ++ strToLower p ++ "'") = true
  ∧ positionQueryConditions a d none =
      ["address = '" ++ a ++ "'", "date = '" ++ d ++ "'", "balance > 0"]
  ∧ strHasSub (buildPositionRangeQuery a s e proto) "balance > 0" = true
  ∧ strHasSub (buildPositionRangeQuery a s e proto) ("date >= '" ++ s ++ "'") = true
  ∧ strHasSub (buildPositionRangeQuery a s e proto) ("date <= '" ++ e ++ "'") = true
  ∧ strHasSub (buildPositionRangeQuery a s e proto)
      "ORDER BY date ASC, usd_balance DESC" = true
  ∧ strHasSub (buildPositionRangeQuery a s e proto) "LIMIT 500" = true
  ∧ strHasSub (buildPositionRangeQuery a s e (some p))
      ("project = '" ++ strToLower p ++ "'") = true
  ∧ rangeQueryConditions a s e none =
      ["address = '" ++ a ++ "'", "date >= '" ++ s ++ "'",
       "date <= '" ++ e ++ "'", "balance > 0"]
  ∧ strHasSub (buildComparisonQuery a d1 d2 proto) "balance > 0" = true
  ∧ strHasSub (buildComparisonQuery a d1 d2 proto)
      ("date IN ('" ++ d1 ++ "', '" ++ d2 ++ "')") = true
  ∧ strHasSub (buildComparisonQuery a d1 d2 proto)
      "ORDER BY date ASC, usd_balance DESC" = true
  ∧ strHasSub (buildComparisonQuery a d1 d2 proto) "LIMIT 100" = true
  ∧ strHasSub (buildComparisonQuery a d1 d2 (some p))
      ("project = '" ++ strToLower p ++ "'") = true
  ∧ comparisonQueryConditions a d1 d2 none =
      ["address = '" ++ a ++ "'",
       "date IN ('" ++ d1 ++ "', '" ++ d2 ++ "')", "balance > 0"] := by
  have snapCond : ∀ (pr : Option String) (x : String),
      x ∈ positionQueryConditions a d pr →
      strHasSub (buildPositionQuery a d pr) x = true := by
    intro pr x hx
    unfold buildPositionQuery
    exact strHasSub_append_left _
      (strHasSub_append_right _ (strHasSub_joinSep _ _ _ hx))
  have snapSuf : ∀ needle : String,
      strHasSub "\n    ORDER BY usd_balance DESC\n    LIMIT 50\n  " needle = true →
      strHasSub (buildPositionQuery a d proto) needle = true := by
    intro needle h
    unfold buildPositionQuery
    exact strHasSub_append_right _ h
  have rngCond : ∀ (pr : Option String) (x : String),
      x ∈ rangeQueryConditions a s e pr →
      strHasSub (buildPositionRangeQuery a s e pr) x = true := by
    intro pr x hx
    unfold buildPositionRangeQuery
    exact strHasSub_append_left _
      (strHasSub_append_right _ (strHasSub_joinSep _ _ _ hx))
  have rngSuf : ∀ needle : String,
      strHasSub "\n    ORDER BY date ASC, usd_balance DESC\n    LIMIT 500\n  " needle = true →
      strHasSub (buildPositionRangeQuery a s e proto) needle = true := by
    intro needle h
    unfold buildPositionRangeQuery
    exact strHasSub_append_right _ h
  have cmpCond : ∀ (pr : Option String) (x : String),
      x ∈ comparisonQueryConditions a d1 d2 pr →
      strHasSub (buildComparisonQuery a d1 d2 pr) x = true := by
    intro pr x hx
    unfold buildComparisonQuery
    exact strHasSub_append_left _
      (strHasSub_append_right _ (strHasSub_joinSep _ _ _ hx))
  have cmpSuf : ∀ needle : String,
      strHasSub "\n    ORDER BY date ASC, usd_balance DESC\n    LIMIT 100\n  " needle = true →
      strHasSub (buildComparisonQuery a d1 d2 proto) needle = true := by
    intro needle h
    unfold buildComparisonQuery
    exact strHasSub_append_right _ h
  refine ⟨?_, ?_, ?_, ?_, ?_, ?_, ?_, ?_, ?_, ?_, ?_, ?_, ?_, ?_, ?_, ?_, ?_, ?_, ?_⟩
  · exact snapCond proto _ (by cases proto <;> simp [positionQueryConditions] <;> split <;> simp)
  · exact snapCond proto _ (by cases proto <;> simp [positionQueryConditions] <;> split <;> simp)
  · exact snapSuf _ (by decide)
  · exact snapSuf _ (by decide)
  · exact snapCond (some p) _ (by simp [positionQueryConditions, hp])
  · simp [positionQueryConditions]
  · exact rngCond proto _ (by cases proto <;> simp [rangeQueryConditions] <;> split <;> simp)
  · exact rngCond proto _ (by cases proto <;> simp [rangeQueryConditions] <;> split <;> simp)
  · exact rngCond proto _ (by cases proto <;> simp [rangeQueryConditions] <;> split <;> simp)
  · exact rngSuf _ (by decide)
  · exact rngSuf _ (by decide)
  · exact rngCond (some p) _ (by simp [rangeQueryConditions, hp])
  · simp [rangeQueryConditions]
  · exact cmpCond proto _ (by cases proto <;> simp [comparisonQueryConditions] <;> split <;> simp)
  · exact cmpCond proto _ (by cases proto <;> simp [comparisonQueryConditions] <;> split <;> simp)
  · exact cmpSuf _ (by decide)
  · exact cmpSuf _ (by decide)
  · exact cmpCond (some p) _ (by simp [comparisonQueryConditions, hp])
  · simp [comparisonQueryConditions]

/-- Witness for C3 at a concrete address, dates, and the protocol
"Kamino": the compiled snapshot query carries the lower-cased protocol
filter and the `balance > 0` filter, and the comparison query carries
its row cap. -/
theorem C3_query_builders_witness :
    strHasSub (buildPositionQuery "GQRzZVLk" "2025-12-31" (some "Kamino"))
      ("project = '" ++ strToLower "Kamino" ++ "'") = true
  ∧ strHasSub (buildPositionQuery "GQRzZVLk" "2025-12-31" (some "Kamino"))
      "balance > 0" = true
  ∧ strHasSub (buildComparisonQuery "GQRzZVLk" "2025-09-30" "2025-12-31" none)
      "LIMIT 100" = true := by
  have h := C3_query_builders "GQRzZVLk" "2025-12-31" "2025-10-01" "2025-12-31"
    "2025-09-30" "2025-12-31" "Kamino" (some "Kamino") (by decide)
  have h2 := C3_query_builders "GQRzZVLk" "2025-12-31" "2025-10-01" "2025-12-31"
    "2025-09-30" "2025-12-31" "Kamino" none (by decide)
  exact ⟨h.2.2.2.2.1, h.1, h2.2.2.2.2.2.2.2.2.2.2.2.2.2.2.2.2.1⟩

/-- C2: a snapshot/range/comparison intent with a missing required
field (address; date; start and end dates; the two comparison dates)
is converted to an error response at the dispatch boundary: the plan
is a `respond` with the per-kind guidance message and the `error`
kind, so no query is compiled and no builder is invoked. -/
theorem C2_incomplete_intent_rejected (p : ParsedQuery)
    (hm : incompleteIntent p = true) :
    dispatchPlan p = .respond (missingFieldMsg p.type) .error := by
  cases h : p.type with
  | snapshot =>
    simp only [incompleteIntent, h] at hm
    simp [dispatchPlan, missingFieldMsg, h, hm]
  | range =>
    simp only [incompleteIntent, h] at hm
    simp [dispatchPlan, missingFieldMsg, h, hm]
  | comparison =>
    simp only [incompleteIntent, h] at hm
    simp [dispatchPlan, missingFieldMsg, h, hm]
  | help => simp [incompleteIntent, h] at hm
  | error => simp [incompleteIntent, h] at hm

/-- Witness for C2: a snapshot intent carrying an address but no date
is answered with the snapshot guidance message and the error kind. -/
theorem C2_incomplete_intent_rejected_witness :
    dispatchPlan { type := .snapshot, address := some "GQRzZVLk" }
      = .respond snapshotMissingMsg .error :=
  C2_incomplete_intent_rejected { type := .snapshot, address := some "GQRzZVLk" }
    (by decide)

/-- C6: for every non-empty row set, the snapshot formatter's reported
total portfolio value is the sum of `usd_balance` over all returned
rows (duplicate-symbol rows included). -/
theorem C6_snapshot_total_sums_all_rows (r0 : PositionRow)
    (rest : List PositionRow) :
    strHasSub (formatPositionTable (r0 :: rest))
      ("**Total Portfolio Value: "
        ++ formatUSD (((r0 :: rest).map (fun r => r.usd_balance)).sum)
        ++ "**") = true := by
  rw [← sumUSD_eq]
  unfold formatPositionTable
  exact strHasSub_append_left _ (strHasSub_append_left _
    (strHasSub_append_right _ (strHasSub_self _)))

/-- C8: magnitude abbreviation — USD values at or above one million
render scaled by 1e6 with two decimals and an M suffix, values at or
above one thousand scaled by 1e3 with a K suffix, smaller values
unscaled with two decimals; balances use four decimals scaled and six
unscaled; with the three concrete renderings the spec lists. -/
theorem C8_magnitude_abbreviation (v : ℚ) :
    (1000000 ≤ v →
      formatUSD v = "$" ++ toFixed 2 (v / 1000000) ++ "M"
        ∧ formatBalance v = toFixed 4 (v / 1000000) ++ "M")
  ∧ (1000 ≤ v → v < 1000000 →
      formatUSD v = "$" ++ toFixed 2 (v / 1000) ++ "K"
        ∧ formatBalance v = toFixed 4 (v / 1000) ++ "K")
  ∧ (v < 1000 →
      formatUSD v = "$" ++ toFixed 2 v ∧ formatBalance v = toFixed 6 v)
  ∧ formatUSD 1500000 = "$1.50M"
  ∧ formatUSD 2500 = "$2.50K"
  ∧ formatUSD (85 / 2) = "$42.50" := by
  have t1 : toFixed 2 ((1500000 : ℚ) / 1000000) = "1.50" := by
    have hr : round ((1500000 : ℚ) / 1000000 * (10 : ℚ) ^ (2 : Nat)) = 150 := by
      norm_num [round_eq]
    simp only [toFixed, hr]
    decide
  have t2 : toFixed 2 ((2500 : ℚ) / 1000) = "2.50" := by
    have hr : round ((2500 : ℚ) / 1000 * (10 : ℚ) ^ (2 : Nat)) = 250 := by
      norm_num [round_eq]
    simp only [toFixed, hr]
    decide
  have t3 : toFixed 2 ((85 : ℚ) / 2) = "42.50" := by
    have hr : round ((85 : ℚ) / 2 * (10 : ℚ) ^ (2 : Nat)) = 4250 := by
      norm_num [round_eq]
    simp only [toFixed, hr]
    decide
  have e1 : formatUSD 1500000 = "$1.50M" := by
    rw [formatUSD, if_pos (by norm_num : (1500000 : ℚ) ≥ 1000000), t1]
    decide
  have e2 : formatUSD 2500 = "$2.50K" := by
    rw [formatUSD, if_neg (by norm_num : ¬ (2500 : ℚ) ≥ 1000000),
      if_pos (by norm_num : (2500 : ℚ) ≥ 1000), t2]
    decide
  have e3 : formatUSD (85 / 2) = "$42.50" := by
    rw [formatUSD, if_neg (by norm_num : ¬ (85 : ℚ) / 2 ≥ 1000000),
      if_neg (by norm_num : ¬ (85 : ℚ) / 2 ≥ 1000), t3]
    decide
  refine ⟨?_, ?_, ?_, e1, e2, e3⟩
  · intro h
    constructor
    · rw [formatUSD, if_pos h]
    · rw [formatBalance, if_pos h]
  · intro h1 h2
    have hn : ¬ (1000000 : ℚ) ≤ v := not_le.mpr h2
    constructor
    · rw [formatUSD, if_neg hn, if_pos h1]
    · rw [formatBalance, if_neg hn, if_pos h1]
  · intro h
    have hn1 : ¬ (1000000 : ℚ) ≤ v := not_le.mpr (h.trans (by norm_num))
    have hn2 : ¬ (1000 : ℚ) ≤ v := not_le.mpr h
    constructor
    · rw [formatUSD, if_neg hn1, if_neg hn2]
    · rw [formatBalance, if_neg hn1, if_neg hn2]

/-- Witness for C8: the K branch at 2500 and the unscaled balance
branch at 42.5, via the theorem. -/
theorem C8_magnitude_abbreviation_witness :
    formatUSD 2500 = "$" ++ toFixed 2 ((2500 : ℚ) / 1000) ++ "K"
  ∧ formatBalance (85 / 2) = toFixed 6 ((85 : ℚ) / 2) :=
  ⟨((C8_magnitude_abbreviation 2500).2.1 (by norm_num) (by norm_num)).1,
   ((C8_magnitude_abbreviation (85 / 2)).2.2.1 (by norm_num)).2⟩

/-- C1 counterexample: a primary reply that is syntactically valid
JSON but does not conform to the `QueryIntent` union (its `type` tag
is not one of the five kinds) is returned as-is by `parseUserQuery` —
no fallback to the deterministic parser happens, contrary to the
claim that any non-conforming reply triggers fallback. -/
theorem C1_nonconforming_reply_counterexample :
    parseUserQuery (.replied "\x7b\"type\": \"bogus\"\x7d") "hello world"
      = .primary (Json.obj [("type", Json.str "bogus")])
  ∧ conformsToQueryIntent (Json.obj [("type", Json.str "bogus")]) = false := by
  constructor
  · rfl
  · rfl

/-- C1 amended: the primary path falls back to the deterministic
parser exactly on a missing credential, a transport failure, or a
reply whose trimmed text is not parseable as JSON; a reply that parses
as JSON — conforming to the union or not — is returned as-is with no
validation.  The embedding is total, so parsing never throws and the
primary-path failure never reaches the caller. -/
theorem C1_fallback_amended (msg text : String) :
    parseUserQuery .noKey msg = .fallback (regexParse msg)
  ∧ parseUserQuery .failed msg = .fallback (regexParse msg)
  ∧ (jsonParse (strTrim text) = none →
      parseUserQuery (.replied text) msg = .fallback (regexParse msg))
  ∧ (∀ j : Json, jsonParse (strTrim text) = some j →
      parseUserQuery (.replied text) msg = .primary j) := by
  refine ⟨rfl, rfl, ?_, ?_⟩
  · intro h
    simp [parseUserQuery, h]
  · intro j h
    simp [parseUserQuery, h]

/-- Witness for C1's amended statement: prose falls back, a JSON reply
is returned as-is. -/
theorem C1_fallback_amended_witness :
    parseUserQuery (.replied "certainly, here you go") "show"
      = .fallback (regexParse "show")
  ∧ parseUserQuery (.replied " null ") "show" = .primary Json.null :=
  ⟨(C1_fallback_amended "show" "certainly, here you go").2.2.1 rfl,
   (C1_fallback_amended "show" " null ").2.2.2 Json.null rfl⟩

theorem findBase58_ne_empty : ∀ (l : List Char) (a : String),
    findBase58 l = some a → ¬ a = "" := by
  intro l
  induction l with
  | nil => intro a h; simp [findBase58] at h
  | cons c cs ih =>
    intro a h
    simp only [findBase58] at h
    split at h
    · rename_i hrun
      cases h
      intro h0
      have hdata : (base58Run (c :: cs)).take 44 = [] :=
        congrArg String.data h0
      have hlen := congrArg List.length hdata
      rw [List.length_take] at hlen
      simp only [List.length_nil] at hlen
      omega
    · exact ih a h

/-- C9: the deterministic fallback parser is total — it is a Lean
function, never throws — and every snapshot, range, or comparison
intent it returns is fully populated: a non-empty address, plus the
date, both range bounds, or both comparison dates respectively; its
kind is always one of the five known kinds. -/
theorem C9_regex_parser_invariants (msg : String) :
    ((regexParse msg).type = .snapshot ∨ (regexParse msg).type = .range
      ∨ (regexParse msg).type = .comparison ∨ (regexParse msg).type = .help
      ∨ (regexParse msg).type = .error)
  ∧ (match (regexParse msg).type with
     | .snapshot => ∃ a d, (regexParse msg).address = some a ∧ ¬ a = ""
          ∧ (regexParse msg).date = some d
     | .range => ∃ a s e, (regexParse msg).address = some a ∧ ¬ a = ""
          ∧ (regexParse msg).start_date = some s
          ∧ (regexParse msg).end_date = some e
     | .comparison => ∃ a d1 d2, (regexParse msg).address = some a ∧ ¬ a = ""
          ∧ (regexParse msg).date1 = some d1 ∧ (regexParse msg).date2 = some d2
     | .help => True
     | .error => True) := by
  constructor
  · cases h : (regexParse msg).type <;> simp
  · by_cases hhelp : helpTrigger (strToLower msg) = true
    · simp [regexParse, hhelp]
    · rw [Bool.not_eq_true] at hhelp
      cases haddr : findBase58 msg.data with
      | none => simp [regexParse, hhelp, haddr]
      | some addr =>
        have hane : ¬ addr = "" := findBase58_ne_empty _ _ haddr
        cases hl : findDates msg.data with
        | nil => simp [regexParse, hhelp, haddr, hl]
        | cons d1 t =>
          cases t with
          | nil =>
            simp only [regexParse, hhelp, haddr, hl]
            simp
            exact hane
          | cons d2 t2 =>
            by_cases hc : comparisonTrigger (strToLower msg) = true
            · simp only [regexParse, hhelp, haddr, hl, hc]
              simp
              exact hane
            · rw [Bool.not_eq_true] at hc
              by_cases hr : rangeTrigger (strToLower msg) = true
              · simp only [regexParse, hhelp, haddr, hl, hc, hr]
                simp
                exact hane
              · rw [Bool.not_eq_true] at hr
                simp only [regexParse, hhelp, haddr, hl, hc, hr]
                simp
                exact hane

/-- C4: for an utterance with a base58 address, a comparison trigger,
at least two extracted dates, and no help trigger, the fallback parser
returns a comparison intent whose `date1` and `date2` are the first
two dates in left-to-right order of appearance — no chronological
re-sorting. -/
theorem C4_comparison_literal_order (msg addr d1 d2 : String)
    (rest : List String)
    (haddr : findBase58 msg.data = some addr)
    (hdates : findDates msg.data = d1 :: d2 :: rest)
    (hcomp : comparisonTrigger (strToLower msg) = true)
    (hhelp : helpTrigger (strToLower msg) = false) :
    regexParse msg =
      { type := .comparison, address := some addr,
        date1 := some d1, date2 := some d2 } := by
  simp [regexParse, haddr, hdates, hcomp, hhelp]

/-- Witness for C4: the spec's own example utterance, with the dates
out-of-order check made visible by the literal result. -/
theorem C4_comparison_literal_order_witness :
    regexParse "Compare GQRzZVLkmehJM1fnMj8e8DdhxMPmQBEGiSnSWeVeJvCc on 2025-09-30 vs 2025-12-31"
      = { type := .comparison,
          address := some "GQRzZVLkmehJM1fnMj8e8DdhxMPmQBEGiSnSWeVeJvCc",
          date1 := some "2025-09-30", date2 := some "2025-12-31" } :=
  C4_comparison_literal_order _ "GQRzZVLkmehJM1fnMj8e8DdhxMPmQBEGiSnSWeVeJvCc"
    "2025-09-30" "2025-12-31" [] (by decide) (by decide) (by decide) (by decide)

/-- C5: for a row set with a single symbol present on both comparison
dates, the comparison formatter's "% Change" cell is
`(usd2 - usd1) / usd1 * 100` rounded to two decimals with a trailing
percent sign when `usd1 > 0`, and `"N/A"` otherwise — in particular
`"N/A"` when `usd1 = 0` even if `usd2 > 0`; the total-portfolio change
line carries the same zero-guarded percentage. -/
theorem C5_comparison_pct_change (r1 r2 : PositionRow) (date1 date2 : String)
    (h1 : formatDate r1.date = date1) (h2 : formatDate r2.date = date2)
    (hs : r2.symbol = r1.symbol) (hne : ¬ date1 = date2) :
    strHasSub (formatComparisonTable [r1, r2] date1 date2)
      (" | " ++ (if 0 < r1.usd_balance
          then toFixed 2 ((r2.usd_balance - r1.usd_balance) / r1.usd_balance * 100) ++ "%"
          else "N/A") ++ " |\n") = true
  ∧ strHasSub (formatComparisonTable [r1, r2] date1 date2)
      ("- Change: " ++ formatUSD (r2.usd_balance - r1.usd_balance) ++ " ("
        ++ (if 0 < r1.usd_balance
            then toFixed 2 ((r2.usd_balance - r1.usd_balance) / r1.usd_balance * 100) ++ "%"
            else "N/A") ++ ")") = true := by
  have hb1 : (formatDate r1.date == date1) = true := by
    rw [h1]; exact beq_self_eq_true _
  have hb2 : (formatDate r2.date == date1) = false := by
    rw [h2]; exact beq_eq_false_iff_ne.mpr (Ne.symm hne)
  have hc1 : (formatDate r1.date == date2) = false := by
    rw [h1]; exact beq_eq_false_iff_ne.mpr hne
  have hc2 : (formatDate r2.date == date2) = true := by
    rw [h2]; exact beq_self_eq_true _
  have hd1 : List.filter (fun r => formatDate r.date == date1) [r1, r2] = [r1] := by
    simp [List.filter_cons, hb1, hb2]
  have hd2 : List.filter (fun r => formatDate r.date == date2) [r1, r2] = [r2] := by
    simp [List.filter_cons, hc1, hc2]
  have hsym : dedupKeep
      (List.map (fun r => r.symbol) [r1] ++ List.map (fun r => r.symbol) [r2])
      = [r1.symbol] := by
    simp [hs, dedupKeep]
  have hf1 : List.find? (fun r => r.symbol == r1.symbol) [r1] = some r1 := by
    simp
  have hf2 : List.find? (fun r => r.symbol == r1.symbol) [r2] = some r2 := by
    simp [hs]
  simp only [formatComparisonTable, hd1, hd2, hsym, List.foldl_cons,
    List.foldl_nil, comparisonStep, hf1, hf2, Option.map_some, Option.getD_some,
    zero_add]
  constructor
  · exact strHasSub_append_left _ (strHasSub_append_left _
      (strHasSub_append_left _ (strHasSub_append_left _
      (strHasSub_append_left _ (strHasSub_append_left _
      (strHasSub_append_left _ (strHasSub_append_left _
      (strHasSub_append_right _ (strHasSub_append_right _
      (strHasSub_self _))))))))))
  · exact strHasSub_append_left _ (strHasSub_append_left _
      (strHasSub_append_right _ (strHasSub_self _)))

/-- Witness for C5, in the zero-guard case: date-1 USD is zero while
date-2 USD is positive, so the per-symbol and total percentage cells
are both "N/A". -/
theorem C5_comparison_pct_change_witness :
    strHasSub
      (formatComparisonTable
        [{ date := "2025-09-30", address := "GQRzZVLk", project := "kamino",
           protocol := "kvault", symbol := "USDC", balance := 0,
           usd_balance := 0, usd_exchange_rate := 1, lending_id := "",
           mint := "", token_name := "USD Coin" },
         { date := "2025-12-31", address := "GQRzZVLk", project := "kamino",
           protocol := "kvault", symbol := "USDC", balance := 5,
           usd_balance := 5, usd_exchange_rate := 1, lending_id := "",
           mint := "", token_name := "USD Coin" }] "2025-09-30" "2025-12-31")
      (" | " ++ (if (0 : ℚ) < 0
          then toFixed 2 (((5 : ℚ) - 0) / 0 * 100) ++ "%" else "N/A")
        ++ " |\n") = true := by
  have h := C5_comparison_pct_change
    { date := "2025-09-30", address := "GQRzZVLk", project := "kamino",
      protocol := "kvault", symbol := "USDC", balance := 0,
      usd_balance := 0, usd_exchange_rate := 1, lending_id := "",
      mint := "", token_name := "USD Coin" }
    { date := "2025-12-31", address := "GQRzZVLk", project := "kamino",
      protocol := "kvault", symbol := "USDC", balance := 5,
      usd_balance := 5, usd_exchange_rate := 1, lending_id := "",
      mint := "", token_name := "USD Coin" }
    "2025-09-30" "2025-12-31" (by decide) (by decide) rfl (by decide)
  exact h.1

/-- C10: when the rows partitioned to one comparison date contain two
rows with the same symbol, only the first row in row-set order
contributes that symbol's balance, USD value, and that date's
portfolio total (`find` returns the first match and the symbol list is
deduplicated); the snapshot formatter's total, by contrast, sums every
returned row. -/
theorem C10_comparison_first_duplicate_wins (r1 rr : PositionRow)
    (date1 date2 : String)
    (h1 : formatDate r1.date = date1) (h2 : formatDate rr.date = date1)
    (hs : rr.symbol = r1.symbol) (hne : ¬ date1 = date2) :
    strHasSub (formatComparisonTable [r1, rr] date1 date2)
      ("- " ++ date1 ++ ": " ++ formatUSD r1.usd_balance) = true
  ∧ strHasSub (formatComparisonTable [r1, rr] date1 date2)
      ("| " ++ r1.symbol ++ " | " ++ formatBalance r1.balance ++ " | "
        ++ formatUSD r1.usd_balance ++ " | ") = true
  ∧ strHasSub (formatPositionTable [r1, rr])
      ("**Total Portfolio Value: "
        ++ formatUSD (r1.usd_balance + rr.usd_balance) ++ "**") = true := by
  have hb1 : (formatDate r1.date == date1) = true := by
    rw [h1]; exact beq_self_eq_true _
  have hb2 : (formatDate rr.date == date1) = true := by
    rw [h2]; exact beq_self_eq_true _
  have hc1 : (formatDate r1.date == date2) = false := by
    rw [h1]; exact beq_eq_false_iff_ne.mpr hne
  have hc2 : (formatDate rr.date == date2) = false := by
    rw [h2]; exact beq_eq_false_iff_ne.mpr hne
  have hd1 : List.filter (fun r => formatDate r.date == date1) [r1, rr]
      = [r1, rr] := by
    simp [List.filter_cons, hb1, hb2]
  have hd2 : List.filter (fun r => formatDate r.date == date2) [r1, rr]
      = [] := by
    simp [List.filter_cons, hc1, hc2]
  have hsym : dedupKeep
      (List.map (fun r => r.symbol) [r1, rr]
        ++ List.map (fun r => r.symbol) ([] : List PositionRow))
      = [r1.symbol] := by
    simp [hs, dedupKeep]
  have hf1 : List.find? (fun r => r.symbol == r1.symbol) [r1, rr]
      = some r1 := by
    simp
  have hf2 : List.find? (fun r => r.symbol == r1.symbol)
      ([] : List PositionRow) = none := rfl
  have hsum : sumUSD [r1, rr] = r1.usd_balance + rr.usd_balance := by
    simp [sumUSD, zero_add]
  refine ⟨?_, ?_, ?_⟩
  · simp only [formatComparisonTable, hd1, hd2, hsym, List.foldl_cons,
      List.foldl_nil, comparisonStep, hf1, hf2, Option.map_some,
      Option.getD_some, Option.map_none, Option.getD_none, zero_add]
    exact strHasSub_append_left _ (strHasSub_append_left _
      (strHasSub_append_left _ (strHasSub_append_left _
      (strHasSub_append_left _ (strHasSub_append_left _
      (strHasSub_append_right _ (strHasSub_self _)))))))
  · simp only [formatComparisonTable, hd1, hd2, hsym, List.foldl_cons,
      List.foldl_nil, comparisonStep, hf1, hf2, Option.map_some,
      Option.getD_some, Option.map_none, Option.getD_none, zero_add]
    exact strHasSub_append_left _ (strHasSub_append_left _
      (strHasSub_append_left _ (strHasSub_append_left _
      (strHasSub_append_left _ (strHasSub_append_left _
      (strHasSub_append_left _ (strHasSub_append_left _
      (strHasSub_append_right _ (strHasSub_append_left _
      (strHasSub_append_left _ (strHasSub_append_left _
      (strHasSub_append_left _ (strHasSub_append_left _
      (strHasSub_append_left _ (strHasSub_self _)))))))))))))))
  · rw [← hsum]
    unfold formatPositionTable
    exact strHasSub_append_left _ (strHasSub_append_left _
      (strHasSub_append_right _ (strHasSub_self _)))

/-- Witness for C10: two date-1 rows share the symbol USDC with USD
values 7 and 3; the comparison date-1 total shows only the first
row's 7. -/
theorem C10_comparison_first_duplicate_wins_witness :
    strHasSub
      (formatComparisonTable
        [{ date := "2025-09-30", address := "GQRzZVLk", project := "kamino",
           protocol := "kvault", symbol := "USDC", balance := 7,
           usd_balance := 7, usd_exchange_rate := 1, lending_id := "",
           mint := "", token_name := "USD Coin" },
         { date := "2025-09-30", address := "GQRzZVLk", project := "kamino",
           protocol := "kvault", symbol := "USDC", balance := 3,
           usd_balance := 3, usd_exchange_rate := 1, lending_id := "",
           mint := "", token_name := "USD Coin" }] "2025-09-30" "2025-12-31")
      ("- " ++ "2025-09-30" ++ ": " ++ formatUSD (7 : ℚ)) = true := by
  have h := C10_comparison_first_duplicate_wins
    { date := "2025-09-30", address := "GQRzZVLk", project := "kamino",
      protocol := "kvault", symbol := "USDC", balance := 7,
      usd_balance := 7, usd_exchange_rate := 1, lending_id := "",
      mint := "", token_name := "USD Coin" }
    { date := "2025-09-30", address := "GQRzZVLk", project := "kamino",
      protocol := "kvault", symbol := "USDC", balance := 3,
      usd_balance := 3, usd_exchange_rate := 1, lending_id := "",
      mint := "", token_name := "USD Coin" }
    "2025-09-30" "2025-12-31" (by decide) (by decide) rfl (by decide)
  exact h.1

theorem mem_lookup_upsert (m : List (String × List PositionRow)) (d : String)
    (r : PositionRow) (e : String) (x : PositionRow) :
    x ∈ (lookupDate (upsertDate m d r) e).getD [] ↔
      x ∈ (lookupDate m e).getD [] ∨ (e = d ∧ x = r) := by
  induction m with
  | nil =>
    simp only [upsertDate, lookupDate]
    by_cases he : d = e
    · subst he; simp
    · have he2 : ¬ e = d := fun h => he h.symm
      simp [he, he2]
  | cons kv rest ih =>
    obtain ⟨k, v⟩ := kv
    simp only [upsertDate]
    by_cases hk : k = d
    · subst hk
      simp only [if_pos rfl, lookupDate]
      by_cases he : k = e
      · subst he; simp
      · have he2 : ¬ e = k := fun h => he h.symm
        simp [he, he2]
    · simp only [if_neg hk, lookupDate]
      by_cases he : k = e
      · simp only [if_pos he]
        have hed : ¬ e = d := fun h => hk (he.trans h)
        simp [hed]
      · simp only [if_neg he]
        exact ih

theorem mem_lookup_groupFold (rows : List PositionRow) :
    ∀ (m : List (String × List PositionRow)) (e : String) (x : PositionRow),
    x ∈ (lookupDate
          (rows.foldl (fun acc r => upsertDate acc (formatDate r.date) r) m)
          e).getD []
      ↔ x ∈ (lookupDate m e).getD [] ∨ (x ∈ rows ∧ formatDate x.date = e) := by
  induction rows with
  | nil => intro m e x; simp
  | cons r rs ih =>
    intro m e x
    simp only [List.foldl_cons]
    rw [ih, mem_lookup_upsert]
    constructor
    · rintro ((h | ⟨he, hx⟩) | ⟨hx, he⟩)
      · exact Or.inl h
      · exact Or.inr ⟨by rw [hx]; exact List.mem_cons_self r rs,
          by rw [hx]; exact he.symm⟩
      · exact Or.inr ⟨List.mem_cons_of_mem _ hx, he⟩
    · rintro (h | ⟨hx, he⟩)
      · exact Or.inl (Or.inl h)
      · rcases List.mem_cons.mp hx with rfl | hx2
        · exact Or.inl (Or.inr ⟨he.symm, rfl⟩)
        · exact Or.inr ⟨hx2, he⟩

theorem mem_lookup_groupByDate (rows : List PositionRow) (e : String)
    (x : PositionRow) :
    x ∈ (lookupDate (groupByDate rows) e).getD [] ↔
      x ∈ rows ∧ formatDate x.date = e := by
  simpa [groupByDate, lookupDate] using mem_lookup_groupFold rows [] e x

theorem mem_keys_upsert (m : List (String × List PositionRow)) (d : String)
    (r : PositionRow) (e : String) :
    e ∈ (upsertDate m d r).map (fun kv => kv.1) ↔
      e ∈ m.map (fun kv => kv.1) ∨ e = d := by
  induction m with
  | nil => simp [upsertDate]
  | cons kv rest ih =>
    obtain ⟨k, v⟩ := kv
    simp only [upsertDate]
    by_cases hk : k = d
    · subst hk
      rw [if_pos rfl]
      simp only [List.map_cons, List.mem_cons]
      tauto
    · rw [if_neg hk]
      simp only [List.map_cons, List.mem_cons, ih]
      tauto

theorem mem_keys_groupFold (rows : List PositionRow) :
    ∀ (m : List (String × List PositionRow)) (e : String),
    e ∈ ((rows.foldl (fun acc r => upsertDate acc (formatDate r.date) r) m).map
          (fun kv => kv.1))
      ↔ e ∈ m.map (fun kv => kv.1) ∨ ∃ r ∈ rows, formatDate r.date = e := by
  induction rows with
  | nil => intro m e; simp
  | cons r rs ih =>
    intro m e
    simp only [List.foldl_cons]
    rw [ih, mem_keys_upsert]
    constructor
    · rintro ((h | he) | ⟨r2, hr2, he2⟩)
      · exact Or.inl h
      · exact Or.inr ⟨r, List.mem_cons_self r rs, he.symm⟩
      · exact Or.inr ⟨r2, List.mem_cons_of_mem _ hr2, he2⟩
    · rintro (h | ⟨r2, hr2, he2⟩)
      · exact Or.inl (Or.inl h)
      · rcases List.mem_cons.mp hr2 with rfl | h2
        · exact Or.inl (Or.inr he2.symm)
        · exact Or.inr ⟨r2, h2, he2⟩

theorem mem_keys_groupByDate (rows : List PositionRow) (e : String) :
    e ∈ (groupByDate rows).map (fun kv => kv.1) ↔
      ∃ r ∈ rows, formatDate r.date = e := by
  simpa [groupByDate] using mem_keys_groupFold rows [] e

theorem mem_insertSorted (d : String) (l : List String) (a : String) :
    a ∈ insertSorted d l ↔ a = d ∨ a ∈ l := by
  induction l with
  | nil => simp [insertSorted]
  | cons x xs ih =>
    simp only [insertSorted]
    split
    · simp [List.mem_cons]
    · simp only [List.mem_cons, ih]
      tauto

theorem mem_sortStrings (xs : List String) (a : String) :
    a ∈ sortStrings xs ↔ a ∈ xs := by
  induction xs with
  | nil => simp [sortStrings]
  | cons x t ih =>
    simp only [sortStrings, List.foldr_cons] at ih ⊢
    rw [mem_insertSorted, ih, List.mem_cons]

theorem rangeSymbolBody_concat (byDate : List (String × List PositionRow))
    (sym : String) :
    ∀ (dates : List String) (init : String),
      dates.foldl
        (fun md date =>
          match ((lookupDate byDate date).getD []).find?
              (fun r => r.symbol == sym) with
          | some row => md ++ rangeLine date row
          | none => md)
        init
      = init ++ concatList (dates.map (rangeDateCell byDate sym)) := by
  intro dates
  induction dates with
  | nil => intro init; simp [concatList, String.append_empty]
  | cons dd ds ih =>
    intro init
    simp only [List.foldl_cons, List.map_cons, concatList]
    cases hfind : ((lookupDate byDate dd).getD []).find?
        (fun r => r.symbol == sym) with
    | some row =>
      simp only [hfind]
      rw [ih]
      have hcell : rangeDateCell byDate sym dd = rangeLine dd row := by
        simp [rangeDateCell, hfind]
      rw [hcell, String.append_assoc]
    | none =>
      simp only [hfind]
      rw [ih]
      have hcell : rangeDateCell byDate sym dd = "" := by
        simp [rangeDateCell, hfind]
      rw [hcell, String.empty_append]

/-- C7: in the range formatter, a symbol's time-series table has a row
for a date exactly when the input row set has a row for that
(date, symbol) pair: the table body is the concatenation, over the
sorted distinct dates, of per-date cells that are a table row when
`byDate.get(date).find(symbol)` succeeds and empty otherwise; the find
succeeds exactly when such an input row exists, and a date appears in
the sorted date list exactly when some input row has it — no zero,
forward-filled, or interpolated row is fabricated. -/
theorem C7_range_no_fabricated_rows (rows : List PositionRow)
    (sym d : String) :
    rangeSymbolBody (groupByDate rows)
        (sortStrings ((groupByDate rows).map (fun kv => kv.1))) sym
      = concatList
          ((sortStrings ((groupByDate rows).map (fun kv => kv.1))).map
            (rangeDateCell (groupByDate rows) sym))
  ∧ ((((lookupDate (groupByDate rows) d).getD []).find?
        (fun r => r.symbol == sym)).isSome = true
      ↔ ∃ r ∈ rows, formatDate r.date = d ∧ r.symbol = sym)
  ∧ (d ∈ sortStrings ((groupByDate rows).map (fun kv => kv.1))
      ↔ ∃ r ∈ rows, formatDate r.date = d) := by
  refine ⟨?_, ?_, ?_⟩
  · have h := rangeSymbolBody_concat (groupByDate rows) sym
      (sortStrings ((groupByDate rows).map (fun kv => kv.1))) ""
    rw [String.empty_append] at h
    exact h
  · rw [List.find?_isSome]
    constructor
    · rintro ⟨r, hr, hp⟩
      have hm := (mem_lookup_groupByDate rows d r).mp hr
      exact ⟨r, hm.1, hm.2, by simpa using hp⟩
    · rintro ⟨r, hr, hd2, hsym2⟩
      exact ⟨r, (mem_lookup_groupByDate rows d r).mpr ⟨hr, hd2⟩,
        by simp [hsym2]⟩
  · rw [mem_sortStrings, mem_keys_groupByDate]
